import Mathlib

/-!
Verification development for the gpioviz pin-state coordinator.

The definitions below are a shallow embedding of the Python source:
`app.py` (pin state dictionaries, flash threads, the clock display,
reset, peripheral cycling, configuration load) and
`components/registry.py` (the component class registry).  Pure
dictionary state is modelled as total functions from pin numbers to
records; the background flash thread is modelled by the argument it
captures at spawn time together with an explicit event trace.
-/

namespace Gpioviz

/-- Per-pin record, mirroring the dictionary created for every pin in
`app.py` (`pin_states[pin] = {...}`). -/
structure PinRec where
  mode : String
  state : Nat
  flashing : Bool
  flash_speed : Nat
  peripheral_mode : String
  available_modes : List String
  component : Bool
deriving Repr, DecidableEq

/-- Keys of the `GPIO_PINS` dictionary in `app.py`: the addressable
BOARD pin numbers. -/
def GPIO_PINS : List Nat :=
  [3, 5, 7, 8, 10, 11, 12, 13, 15, 16, 18, 19, 21, 22, 23, 24, 26,
   29, 31, 32, 33, 35, 36, 37, 38, 40]

/-- The `PIN_ALT_FUNCTIONS` dictionary from `app.py`. -/
def PIN_ALT_FUNCTIONS_TABLE : List (Nat × List String) :=
  [(3, ["I2C1 SDA", "GPIO"]),
   (5, ["I2C1 SCL", "GPIO"]),
   (7, ["GPCLK0", "GPIO"]),
   (8, ["UART TX", "GPIO"]),
   (10, ["UART RX", "GPIO"]),
   (12, ["PWM0", "PCM CLK", "GPIO"]),
   (19, ["SPI0 MOSI", "GPIO"]),
   (21, ["SPI0 MISO", "GPIO"]),
   (23, ["SPI0 SCLK", "GPIO"]),
   (24, ["SPI0 CE0", "GPIO"]),
   (26, ["SPI0 CE1", "GPIO"]),
   (32, ["PWM0", "GPIO"]),
   (33, ["PWM1", "GPIO"]),
   (35, ["PWM1", "SPI1 MISO", "GPIO"]),
   (38, ["SPI1 MISO", "PCM DIN", "GPIO"]),
   (40, ["SPI1 SCLK", "PCM DOUT", "GPIO"])]

/-- `PIN_ALT_FUNCTIONS.get(pin, ['GPIO'])` from `app.py`. -/
def pinAltFunctions (p : Nat) : List String :=
  (PIN_ALT_FUNCTIONS_TABLE.lookup p).getD ["GPIO"]

/-- The initial pin record built by the startup loop in `app.py`
(`for pin in GPIO_PINS.keys(): pin_states[pin] = {...}`). -/
def initPinRec (p : Nat) : PinRec :=
  { mode := "OUT"
    state := 0
    flashing := false
    flash_speed := 500
    peripheral_mode := "GPIO"
    available_modes := pinAltFunctions p
    component := false }

/-- Point update of a pin-state table: `pin_states[pin] = ...` /
mutation of one dictionary entry. -/
def updPS (f : Nat → PinRec) (p : Nat) (g : PinRec → PinRec) : Nat → PinRec :=
  fun q => if q = p then g (f q) else f q

/-- Observable events of the embedded code: a hardware level write
(`GPIO.output`), a state-store write (`pin_states[pin]['state'] = ...`)
and a sleep (`time.sleep`, recorded in milliseconds). -/
inductive Ev where
  | gpioWrite (pin level : Nat)
  | stateWrite (pin level : Nat)
  | sleepMs (ms : Nat)
deriving Repr, DecidableEq

/-- The pin an event touches, if any. -/
def evPin : Ev → Option Nat
  | .gpioWrite p _ => some p
  | .stateWrite p _ => some p
  | .sleepMs _ => none

/-- Mutable module state of `app.py`: `pin_states`, `flashing_pins`,
`flash_threads`, plus the component registry state used by the
component routes.  A running flash thread is modelled by the `speed`
argument captured when the thread was spawned (that argument is the
only period `flash_pin` ever sleeps with); `spawned` logs every
`thread.start()` of a flash thread as a `(pin, speed)` pair. -/
structure AppState where
  pin_states : Nat → PinRec
  flashing_pins : Nat → Bool
  flash_threads : Nat → Option Nat
  spawned : List (Nat × Nat)
  instances : Nat → Option String
  component_running : Nat → Bool
  component_data : Nat → Option String

/-- Process-start state of `app.py`. -/
def mkInit : AppState :=
  { pin_states := initPinRec
    flashing_pins := fun _ => false
    flash_threads := fun _ => none
    spawned := []
    instances := fun _ => none
    component_running := fun _ => false
    component_data := fun _ => none }

/-- The `toggle_flash` route (`/api/pin/<pin>/flash` in `app.py`).
Returns the updated state together with the `flashing` value reported
in the JSON response, or an error for a pin outside `GPIO_PINS`. -/
def toggle_flash (pin : Nat) (enabled : Bool) (speed : Nat) (st : AppState) :
    Except String (AppState × Bool) :=
  if pin ∈ GPIO_PINS then
    let ps1 := updPS st.pin_states pin (fun r => { r with flash_speed := speed })
    let st1 : AppState := { st with pin_states := ps1 }
    if enabled then
      if (st1.pin_states pin).flashing = false then
        let ps2 := updPS st1.pin_states pin (fun r => { r with flashing := true })
        let fp2 := fun q => if q = pin then true else st1.flashing_pins q
        let ft2 := fun q => if q = pin then some speed else st1.flash_threads q
        let st2 : AppState :=
          { st1 with pin_states := ps2, flashing_pins := fp2, flash_threads := ft2,
                     spawned := st1.spawned ++ [(pin, speed)] }
        Except.ok (st2, (st2.pin_states pin).flashing)
      else
        Except.ok (st1, (st1.pin_states pin).flashing)
    else
      if (st1.pin_states pin).flashing = true then
        let ps2 := updPS st1.pin_states pin (fun r => { r with flashing := false, state := 0 })
        let fp2 := fun q => if q = pin then false else st1.flashing_pins q
        let st2 : AppState := { st1 with flashing_pins := fp2, pin_states := ps2 }
        Except.ok (st2, (st2.pin_states pin).flashing)
      else
        Except.ok (st1, (st1.pin_states pin).flashing)
  else
    Except.error "Invalid pin"

/-- The `while flashing_pins.get(pin, False):` loop body of
`flash_pin` in `app.py`, run for `fuel` iterations.  Each iteration
writes HIGH, records the state, sleeps `speed_ms` milliseconds
(`time.sleep(speed_ms / 1000.0)`), writes LOW, records the state and
sleeps `speed_ms` milliseconds again. -/
def flash_loop (pin speed_ms : Nat) : AppState → Nat → AppState × List Ev
  | st, 0 => (st, [])
  | st, Nat.succ n =>
    if st.flashing_pins pin = true then
      let psA := updPS st.pin_states pin (fun r => { r with state := 1 })
      let stA : AppState := { st with pin_states := psA }
      let psB := updPS stA.pin_states pin (fun r => { r with state := 0 })
      let stB : AppState := { stA with pin_states := psB }
      let rest := flash_loop pin speed_ms stB n
      (rest.1,
        [Ev.gpioWrite pin 1, Ev.stateWrite pin 1, Ev.sleepMs speed_ms,
         Ev.gpioWrite pin 0, Ev.stateWrite pin 0, Ev.sleepMs speed_ms] ++ rest.2)
    else
      (st, [])

/-- `flash_pin(pin, speed_ms)` from `app.py`: `ensure_pin_setup(pin,
'OUT')` (which drives the pin LOW) followed by the flash loop. -/
def flash_pin (pin speed_ms fuel : Nat) (st : AppState) : AppState × List Ev :=
  let r := flash_loop pin speed_ms st fuel
  (r.1, Ev.gpioWrite pin 0 :: r.2)

/-- The sleep durations (ms) occurring in a trace, in order. -/
def sleepsOf (evs : List Ev) : List Nat :=
  evs.filterMap (fun e => match e with | .sleepMs m => some m | _ => none)

/-- Run `toggle_flash` and keep the resulting state (identity on the
error branch); used to chain concrete route invocations. -/
def runToggle (pin : Nat) (enabled : Bool) (speed : Nat) (st : AppState) : AppState :=
  match toggle_flash pin enabled speed st with
  | .ok r => r.1
  | .error _ => st

/-- Body of the `for pin in GPIO_PINS.keys():` loop of `reset_all` in
`app.py`: skip pins with a component, stop flashing, drive LOW and
reset mode / state / flashing. -/
def reset_step (st : AppState) (pin : Nat) : AppState :=
  if (st.pin_states pin).component = true then
    st
  else
    let fp1 := fun q => if q = pin then false else st.flashing_pins q
    let stA : AppState :=
      if (st.pin_states pin).flashing = true then { st with flashing_pins := fp1 } else st
    let psA := updPS stA.pin_states pin
      (fun r => { r with mode := "OUT", state := 0, flashing := false })
    { stA with pin_states := psA }

/-- The `reset_all` route (`/api/reset` in `app.py`). -/
def reset_all (st : AppState) : AppState :=
  GPIO_PINS.foldl reset_step st

/-- `ComponentRegistry.component_classes` from `components/registry.py`,
a dictionary from type tag to component class; a class object is
modelled by its name. -/
structure Registry where
  component_classes : String → Option String

/-- A registry with no registered classes. -/
def emptyRegistry : Registry :=
  { component_classes := fun _ => none }

/-- `ComponentRegistry.register_class` from `components/registry.py`:
`self.component_classes[component_type] = component_class`. -/
def register_class (r : Registry) (component_type cls : String) : Registry :=
  { r with component_classes :=
      fun t => if t = component_type then some cls else r.component_classes t }

/-- The registrations performed at startup in `app.py`
(`register_class('dht22', DHT22Component)` then
`register_class('dht11', DHT11Component)`). -/
def app_registry : Registry :=
  register_class (register_class emptyRegistry "dht22" "DHT22Component")
    "dht11" "DHT11Component"

/-- The index arithmetic of `toggle_peripheral` in `app.py`:
`available_modes.index(current_mode)`, advance by one modulo the list
length, falling back to `available_modes[0]` on `ValueError`. -/
def next_peripheral_mode (modes : List String) (cur : String) : String :=
  match modes.indexOf? cur with
  | some i => modes.getD ((i + 1) % modes.length) cur
  | none => modes.getD 0 cur

/-- Effect of the `toggle_peripheral` route on one pin record:
`pin_states[pin]['peripheral_mode'] = new_mode`. -/
def toggle_peripheral_rec (r : PinRec) : PinRec :=
  { r with peripheral_mode := next_peripheral_mode r.available_modes r.peripheral_mode }

/-- `ONES_PATTERNS_GPIO` from `app.py`. -/
def ONES_PATTERNS_TABLE : List (Nat × List Nat) :=
  [(0, [11, 8, 7, 5, 16, 12, 19, 21, 13, 26]),
   (1, [8, 6, 20, 13]),
   (2, [11, 8, 7, 16, 20, 12, 21, 13, 26]),
   (3, [11, 8, 7, 6, 16, 20, 19, 26, 13]),
   (4, [11, 5, 12, 20, 19, 6, 16, 26]),
   (5, [11, 8, 7, 5, 20, 19, 26, 13]),
   (6, [11, 8, 7, 5, 12, 20, 19, 21, 13, 26]),
   (7, [11, 8, 7, 16, 19, 26]),
   (8, [11, 8, 7, 5, 6, 16, 12, 20, 19, 21, 13, 26]),
   (9, [11, 8, 7, 5, 6, 16, 20, 19, 26, 13])]

/-- `TENS_PATTERNS_GPIO` from `app.py`. -/
def TENS_PATTERNS_TABLE : List (Nat × List Nat) :=
  [(0, [17, 18, 10, 14, 24, 23, 2, 3, 4]),
   (1, [18, 15, 22, 3]),
   (2, [17, 18, 10, 24, 22, 23, 2, 3, 4]),
   (3, [17, 18, 10, 15, 24, 22, 4, 3]),
   (4, [17, 14, 23, 22, 15, 24, 4]),
   (5, [17, 18, 10, 14, 22, 4, 3]),
   (6, [17, 18, 10, 14, 23, 22, 2, 3, 4]),
   (7, [17, 18, 10, 24, 4]),
   (8, [17, 18, 10, 14, 15, 24, 23, 22, 2, 3, 4]),
   (9, [17, 18, 10, 14, 15, 24, 22, 4, 3])]

/-- `ONES_PATTERNS_GPIO.get(digit, [])`. -/
def onesPattern (d : Nat) : List Nat :=
  (ONES_PATTERNS_TABLE.lookup d).getD []

/-- `TENS_PATTERNS_GPIO.get(digit, [])`. -/
def tensPattern (d : Nat) : List Nat :=
  (TENS_PATTERNS_TABLE.lookup d).getD []

/-- `ONES_GPIO_TO_PIN` from `app.py`. -/
def ONES_GPIO_TO_PIN_TABLE : List (Nat × Nat) :=
  [(11, 23), (8, 24), (7, 26), (5, 29), (6, 31), (16, 36),
   (12, 32), (20, 38), (19, 35), (21, 40), (13, 33), (26, 37)]

/-- `TENS_GPIO_TO_PIN` from `app.py`. -/
def TENS_GPIO_TO_PIN_TABLE : List (Nat × Nat) :=
  [(17, 11), (18, 12), (10, 19), (14, 8), (15, 10), (24, 18),
   (23, 16), (22, 15), (2, 3), (3, 5), (4, 7)]

/-- `ONES_GPIO_TO_PIN.get(gpio_num)`. -/
def onesGpioToPin (g : Nat) : Option Nat :=
  ONES_GPIO_TO_PIN_TABLE.lookup g

/-- `TENS_GPIO_TO_PIN.get(gpio_num)`. -/
def tensGpioToPin (g : Nat) : Option Nat :=
  TENS_GPIO_TO_PIN_TABLE.lookup g

/-- `get_all_clock_pins()` from `app.py`:
`list(ONES_GPIO_TO_PIN.values()) + list(TENS_GPIO_TO_PIN.values())`. -/
def get_all_clock_pins : List Nat :=
  ONES_GPIO_TO_PIN_TABLE.map Prod.snd ++ TENS_GPIO_TO_PIN_TABLE.map Prod.snd

/-- The clear pass of one `clock_display_thread` iteration in `app.py`:
for each clock pin in `GPIO_PINS` without a component,
`ensure_pin_setup(pin, 'OUT')` (drives LOW), `GPIO.output(pin, LOW)`
and `pin_states[pin]['state'] = 0`. -/
def clear_pins : (Nat → PinRec) → List Nat → ((Nat → PinRec) × List Ev)
  | ps, [] => (ps, [])
  | ps, pin :: rest =>
    if pin ∈ GPIO_PINS ∧ (ps pin).component = false then
      let ps1 := updPS ps pin (fun r => { r with state := 0 })
      let r := clear_pins ps1 rest
      (r.1, [Ev.gpioWrite pin 0, Ev.gpioWrite pin 0, Ev.stateWrite pin 0] ++ r.2)
    else
      clear_pins ps rest

/-- A digit-pattern pass of one `clock_display_thread` iteration in
`app.py`: map each GPIO number of the pattern through the
gpio-to-pin table and, for mapped pins in `GPIO_PINS` without a
component, `ensure_pin_setup(pin, 'OUT')` (drives LOW),
`GPIO.output(pin, HIGH)` and `pin_states[pin]['state'] = 1`. -/
def display_pattern (g2p : Nat → Option Nat) :
    (Nat → PinRec) → List Nat → ((Nat → PinRec) × List Ev)
  | ps, [] => (ps, [])
  | ps, g :: rest =>
    match g2p g with
    | some pin =>
      if pin ∈ GPIO_PINS ∧ (ps pin).component = false then
        let ps1 := updPS ps pin (fun r => { r with state := 1 })
        let r := display_pattern g2p ps1 rest
        (r.1, [Ev.gpioWrite pin 0, Ev.gpioWrite pin 1, Ev.stateWrite pin 1] ++ r.2)
      else
        display_pattern g2p ps rest
    | none => display_pattern g2p ps rest

/-- One iteration of the `while clock_running:` loop of
`clock_display_thread` in `app.py`, for a given wall-clock seconds
value: clear all clock pins, display the tens digit, display the ones
digit, sleep one second. -/
def clock_tick (seconds : Nat) (ps : Nat → PinRec) : ((Nat → PinRec) × List Ev) :=
  let tens_digit := seconds / 10
  let ones_digit := seconds % 10
  let c := clear_pins ps get_all_clock_pins
  let t := display_pattern tensGpioToPin c.1 (tensPattern tens_digit)
  let o := display_pattern onesGpioToPin t.1 (onesPattern ones_digit)
  (o.1, c.2 ++ t.2 ++ o.2 ++ [Ev.sleepMs 1000])

/-- The clear pass of a tick, named for reasoning. -/
def clock_clear (ps : Nat → PinRec) : ((Nat → PinRec) × List Ev) :=
  clear_pins ps get_all_clock_pins

/-- The tens pass of a tick, applied after the clear pass. -/
def clock_tens (seconds : Nat) (ps : Nat → PinRec) : ((Nat → PinRec) × List Ev) :=
  display_pattern tensGpioToPin (clock_clear ps).1 (tensPattern (seconds / 10))

/-- The ones pass of a tick, applied after the tens pass. -/
def clock_ones (seconds : Nat) (ps : Nat → PinRec) : ((Nat → PinRec) × List Ev) :=
  display_pattern onesGpioToPin (clock_tens seconds ps).1 (onesPattern (seconds % 10))

/-- Whether the digit patterns for the given seconds value select pin
`p` (through either gpio-to-pin table). -/
def clock_selects (seconds p : Nat) : Prop :=
  (∃ g ∈ tensPattern (seconds / 10), tensGpioToPin g = some p) ∨
  (∃ g ∈ onesPattern (seconds % 10), onesGpioToPin g = some p)

instance (seconds p : Nat) : Decidable (clock_selects seconds p) := by
  unfold clock_selects
  infer_instance

/-- The `remove_component` route (`/api/component/<pin>/remove` in
`app.py`): stop the reading thread, remove the registry instance,
set the pin to `IN` with `component = False`, delete the latest
reading.  None of these steps checks whether a component was bound. -/
def remove_component_route (pin : Nat) (st : AppState) : Except String AppState :=
  if pin ∈ GPIO_PINS then
    let cr1 := fun q => if q = pin then false else st.component_running q
    let inst1 := fun q => if q = pin then none else st.instances q
    let ps1 := updPS st.pin_states pin
      (fun r => { r with mode := "IN", component := false })
    let cd1 := fun q => if q = pin then none else st.component_data q
    Except.ok { st with component_running := cr1, instances := inst1,
                        pin_states := ps1, component_data := cd1 }
  else
    Except.error "Invalid pin"

/-- One entry of the `pins:` section of a persisted configuration,
with the optional fields read by `load_configuration` in `app.py`. -/
structure PinSettings where
  mode : Option String
  state : Option Nat
  peripheral_mode : Option String
  flash_speed : Option Nat
deriving Repr, DecidableEq

/-- `settings.get(...)` application of one pin entry, as performed by
`load_configuration` for an addressable pin. -/
def apply_settings (s : PinSettings) (r : PinRec) : PinRec :=
  { r with mode := s.mode.getD "OUT",
           state := s.state.getD 0,
           peripheral_mode := s.peripheral_mode.getD "GPIO",
           flash_speed := s.flash_speed.getD 500 }

/-- The `for pin, settings in config['pins'].items():` loop of
`load_configuration` in `app.py`: entries whose pin is in `GPIO_PINS`
are applied; any other entry falls through the `if` with no effect and
nothing recorded.  The second component is the list of warnings that
the loop records: the source records none in either branch. -/
def load_pin_entries : (Nat → PinRec) → List (Nat × PinSettings) →
    ((Nat → PinRec) × List String)
  | ps, [] => (ps, [])
  | ps, e :: rest =>
    if e.1 ∈ GPIO_PINS then
      load_pin_entries (updPS ps e.1 (apply_settings e.2)) rest
    else
      load_pin_entries ps rest

/-- One entry of the `components:` section of a persisted
configuration (`comp_info.get('type')`). -/
structure CompEntry where
  ctype : Option String
deriving Repr, DecidableEq

/-- The `for pin, comp_info in config['components'].items():` loop of
`load_configuration` in `app.py`: out-of-range pins hit `continue`;
an unknown or missing type makes `create_component` return `None` (a
log line only) and the entry is skipped; otherwise the component is
assigned and the pin record gets `mode = type.upper()` and
`component = True`.  No branch records a warning. -/
def load_component_entries (reg : String → Option String) :
    (Nat → PinRec) → List (Nat × CompEntry) → ((Nat → PinRec) × List String)
  | ps, [] => (ps, [])
  | ps, e :: rest =>
    if e.1 ∈ GPIO_PINS then
      match e.2.ctype with
      | some t =>
        match reg t with
        | some _ =>
          let ps1 := updPS ps e.1
            (fun r => { r with mode := t.toUpper, component := true })
          load_component_entries reg ps1 rest
        | none => load_component_entries reg ps rest
      | none => load_component_entries reg ps rest
    else
      load_component_entries reg ps rest

/-- `load_configuration` from `app.py`, restricted to its effect on
`pin_states` and to the warnings it records: the pins section is
applied first, then the components section. -/
def load_configuration (reg : String → Option String)
    (pins : List (Nat × PinSettings)) (comps : List (Nat × CompEntry))
    (ps : Nat → PinRec) : ((Nat → PinRec) × List String) :=
  let r1 := load_pin_entries ps pins
  let r2 := load_component_entries reg r1.1 comps
  (r2.1, r1.2 ++ r2.2)

/-- Startup state in which pin 11 has a component bound (as after a
successful `assign_component` on pin 11). -/
def compBoundState : AppState :=
  { mkInit with pin_states := updPS mkInit.pin_states 11 (fun r => { r with component := true }) }

/-- Startup state in which the flash flag of pin 11 is set, as seen by
a freshly started flash thread for pin 11. -/
def flashOn11State : AppState :=
  { mkInit with flashing_pins := fun q => q == 11 }

/-- State after `toggle_flash(11, enabled=True, speed=500)` from the
startup state. -/
def afterFirstToggle : AppState := runToggle 11 true 500 mkInit

/-- State after `toggle_flash(11, True, 500)` followed by
`toggle_flash(11, True, 200)` from the startup state. -/
def afterSecondToggle : AppState := runToggle 11 true 200 afterFirstToggle

/-- A concrete pins-section entry used for the import scenario. -/
def snapshotSettings : PinSettings :=
  { mode := some "IN", state := some 1, peripheral_mode := none, flash_speed := some 250 }

/-- Initial pin-state table in which pin 23 has a component bound. -/
def clockCompPs : Nat → PinRec :=
  updPS initPinRec 23 (fun r => { r with component := true })

@[simp]
theorem updPS_self (f : Nat → PinRec) (p : Nat) (g : PinRec → PinRec) :
    updPS f p g p = g (f p) := by
  simp [updPS]

theorem updPS_ne (f : Nat → PinRec) (p : Nat) (g : PinRec → PinRec) (q : Nat)
    (h : q ≠ p) : updPS f p g q = f q := by
  simp [updPS, h]

theorem updPS_updPS (f : Nat → PinRec) (p : Nat) (g h : PinRec → PinRec) :
    updPS (updPS f p g) p h = updPS f p (fun r => h (g r)) := by
  funext q
  by_cases hq : q = p
  · subst hq; simp [updPS]
  · simp [updPS, hq]

/-- Start branch of `toggle_flash`: enabled request on a pin that is
not flashing sets `flash_speed` and `flashing`, marks the pin in
`flashing_pins`, stores a new thread and logs its spawn. -/
theorem toggle_flash_start_spec (st : AppState) (p T : Nat) (hp : p ∈ GPIO_PINS)
    (hf : (st.pin_states p).flashing = false) :
    ∃ st2, toggle_flash p true T st = Except.ok (st2, true) ∧
      st2.pin_states = updPS st.pin_states p
        (fun r => { r with flash_speed := T, flashing := true }) ∧
      st2.flashing_pins = (fun q => if q = p then true else st.flashing_pins q) ∧
      st2.flash_threads = (fun q => if q = p then some T else st.flash_threads q) ∧
      st2.spawned = st.spawned ++ [(p, T)] := by
  refine ⟨{ st with
      pin_states := updPS (updPS st.pin_states p (fun r => { r with flash_speed := T })) p
        (fun r => { r with flashing := true }),
      flashing_pins := fun q => if q = p then true else st.flashing_pins q,
      flash_threads := fun q => if q = p then some T else st.flash_threads q,
      spawned := st.spawned ++ [(p, T)] }, ?_, ?_, ?_, ?_, ?_⟩
  · unfold toggle_flash
    rw [if_pos hp]
    simp [updPS_self, hf]
  · rw [updPS_updPS]
  · rfl
  · rfl
  · rfl

/-- Already-flashing branch of `toggle_flash`: an enabled request on a
pin already flashing only rewrites `flash_speed`; the running thread,
the flash flag and the spawn log are untouched. -/
theorem toggle_flash_already_spec (st : AppState) (p T : Nat) (hp : p ∈ GPIO_PINS)
    (hf : (st.pin_states p).flashing = true) :
    ∃ st2, toggle_flash p true T st = Except.ok (st2, true) ∧
      st2.pin_states = updPS st.pin_states p (fun r => { r with flash_speed := T }) ∧
      st2.flashing_pins = st.flashing_pins ∧
      st2.flash_threads = st.flash_threads ∧
      st2.spawned = st.spawned := by
  refine ⟨{ st with
      pin_states := updPS st.pin_states p (fun r => { r with flash_speed := T }) }, ?_, ?_, ?_, ?_, ?_⟩
  · unfold toggle_flash
    rw [if_pos hp]
    simp [updPS_self, hf]
  · rfl
  · rfl
  · rfl
  · rfl

/-- C1 counterexample: from a state where pin 11 has a component
bound, `toggle_flash(11, enabled=True, speed=500)` is not a no-op — it
sets `flashing = True`, spawns a flash thread and stores it. -/
theorem c1_counterexample :
    (compBoundState.pin_states 11).component = true ∧
    ((runToggle 11 true 500 compBoundState).pin_states 11).flashing = true ∧
    (runToggle 11 true 500 compBoundState).spawned = [(11, 500)] ∧
    (runToggle 11 true 500 compBoundState).flash_threads 11 = some 500 := by
  refine ⟨by decide, by decide, by decide, by decide⟩

/-- C1 (amended): `toggle_flash` never checks `component`, so an
Oscillator activation request on a component-bound, non-flashing pin
behaves exactly as on an unbound pin: the flash activity starts, the
record shows `flashing = true`, a thread for the requested period is
stored and its spawn is logged, and the component flag survives. -/
theorem c1_flash_ignores_component (st : AppState) (p T : Nat) (hp : p ∈ GPIO_PINS)
    (hc : (st.pin_states p).component = true)
    (hf : (st.pin_states p).flashing = false) :
    ∃ st2, toggle_flash p true T st = Except.ok (st2, true) ∧
      (st2.pin_states p).flashing = true ∧
      (st2.pin_states p).component = true ∧
      st2.flash_threads p = some T ∧
      st2.spawned = st.spawned ++ [(p, T)] := by
  obtain ⟨st2, he, hps, hfp, hft, hsp⟩ := toggle_flash_start_spec st p T hp hf
  refine ⟨st2, he, ?_, ?_, ?_, hsp⟩
  · rw [hps, updPS_self]
  · rw [hps, updPS_self]; exact hc
  · rw [hft]; simp

/-- C1 witness: the no-component-check theorem applied to the startup
state with a component bound to pin 11. -/
theorem c1_witness :
    (11 ∈ GPIO_PINS ∧ (compBoundState.pin_states 11).component = true ∧
      (compBoundState.pin_states 11).flashing = false) ∧
    (∃ st2, toggle_flash 11 true 500 compBoundState = Except.ok (st2, true) ∧
      (st2.pin_states 11).flashing = true ∧
      (st2.pin_states 11).component = true ∧
      st2.flash_threads 11 = some 500 ∧
      st2.spawned = compBoundState.spawned ++ [(11, 500)]) :=
  ⟨⟨by decide, by decide, by decide⟩,
   c1_flash_ignores_component compBoundState 11 500 (by decide) (by decide) (by decide)⟩

/-- C4 counterexample: after `toggle_flash(11, True, 500)` then
`toggle_flash(11, True, 200)`, the record's `flash_speed` is 200 but
the one running thread still carries 500, and the flash loop it
executes still sleeps 500 ms per half-cycle — no live update to 200
took place. -/
theorem c4_counterexample :
    (afterSecondToggle.pin_states 11).flash_speed = 200 ∧
    afterSecondToggle.flash_threads 11 = some 500 ∧
    ¬ (afterSecondToggle.flash_threads 11 = some 200) ∧
    sleepsOf (flash_loop 11 500 afterSecondToggle 1).2 = [500, 500] := by
  refine ⟨by decide, by decide, by decide, by decide⟩

/-- C4 (amended): a second enabled `toggle_flash` with a different
period on a pin whose Oscillator is running rewrites the record's
`flash_speed` to the new period but neither updates the running
thread's captured period nor restarts it: the thread and the spawn log
are unchanged, so the activity's half-cycle waits stay derived from
the original period. -/
theorem c4_no_live_update (st : AppState) (p T T2 : Nat) (hp : p ∈ GPIO_PINS)
    (hf : (st.pin_states p).flashing = true)
    (ht : st.flash_threads p = some T) :
    ∃ st2, toggle_flash p true T2 st = Except.ok (st2, true) ∧
      st2.flash_threads p = some T ∧
      (st2.pin_states p).flash_speed = T2 ∧
      st2.spawned = st.spawned ∧
      (st2.pin_states p).flashing = true := by
  obtain ⟨st2, he, hps, hfp, hft, hsp⟩ := toggle_flash_already_spec st p T2 hp hf
  refine ⟨st2, he, ?_, ?_, hsp, ?_⟩
  · rw [hft]; exact ht
  · rw [hps, updPS_self]
  · rw [hps, updPS_self]; exact hf

/-- C4 witness: the no-live-update theorem applied to the state after
`toggle_flash(11, True, 500)`, with a new period of 200. -/
theorem c4_witness :
    (11 ∈ GPIO_PINS ∧ (afterFirstToggle.pin_states 11).flashing = true ∧
      afterFirstToggle.flash_threads 11 = some 500) ∧
    (∃ st2, toggle_flash 11 true 200 afterFirstToggle = Except.ok (st2, true) ∧
      st2.flash_threads 11 = some 500 ∧
      (st2.pin_states 11).flash_speed = 200 ∧
      st2.spawned = afterFirstToggle.spawned ∧
      (st2.pin_states 11).flashing = true) :=
  ⟨⟨by decide, by decide, by decide⟩,
   c4_no_live_update afterFirstToggle 11 500 200 (by decide) (by decide) (by decide)⟩

/-- C5: two consecutive enabled `toggle_flash(p, True, T)` calls from
a non-flashing state spawn exactly one flash thread (the spawn log
grows by one entry, from the first call only) and leave the record at
`flashing = true`, `flash_speed = T` with that single thread stored. -/
theorem c5_idempotent_toggle (st : AppState) (p T : Nat) (hp : p ∈ GPIO_PINS)
    (hf : (st.pin_states p).flashing = false) :
    ∃ st1 st2, toggle_flash p true T st = Except.ok (st1, true) ∧
      toggle_flash p true T st1 = Except.ok (st2, true) ∧
      st2.spawned = st.spawned ++ [(p, T)] ∧
      st2.flash_threads p = some T ∧
      (st2.pin_states p).flashing = true ∧
      (st2.pin_states p).flash_speed = T := by
  obtain ⟨st1, he1, hps1, hfp1, hft1, hsp1⟩ := toggle_flash_start_spec st p T hp hf
  have hf1 : (st1.pin_states p).flashing = true := by rw [hps1, updPS_self]
  obtain ⟨st2, he2, hps2, hfp2, hft2, hsp2⟩ := toggle_flash_already_spec st1 p T hp hf1
  refine ⟨st1, st2, he1, he2, ?_, ?_, ?_, ?_⟩
  · rw [hsp2, hsp1]
  · rw [hft2, hft1]; simp
  · rw [hps2, updPS_self, hps1, updPS_self]
  · rw [hps2, updPS_self]

/-- C5 witness: the idempotent-toggle theorem applied at pin 11 with
period 500 from the startup state. -/
theorem c5_witness :
    (11 ∈ GPIO_PINS ∧ (mkInit.pin_states 11).flashing = false) ∧
    (∃ st1 st2, toggle_flash 11 true 500 mkInit = Except.ok (st1, true) ∧
      toggle_flash 11 true 500 st1 = Except.ok (st2, true) ∧
      st2.spawned = mkInit.spawned ++ [(11, 500)] ∧
      st2.flash_threads 11 = some 500 ∧
      (st2.pin_states 11).flashing = true ∧
      (st2.pin_states 11).flash_speed = 500) :=
  ⟨⟨by decide, by decide⟩, c5_idempotent_toggle mkInit 11 500 (by decide) (by decide)⟩

theorem flash_loop_trace (pin T : Nat) : ∀ (k : Nat) (st : AppState),
    st.flashing_pins pin = true →
    (flash_loop pin T st k).2 =
      (List.replicate k
        [Ev.gpioWrite pin 1, Ev.stateWrite pin 1, Ev.sleepMs T,
         Ev.gpioWrite pin 0, Ev.stateWrite pin 0, Ev.sleepMs T]).flatten := by
  intro k
  induction k with
  | zero => intro st hf; rfl
  | succ n ih =>
    intro st hf
    unfold flash_loop
    rw [if_pos hf]
    have h2 := ih { st with pin_states := updPS (updPS st.pin_states pin (fun r => { r with state := 1 })) pin (fun r => { r with state := 0 }) } hf
    simp only [List.replicate_succ, List.flatten_cons]
    simpa using h2

/-- C3 (amended): while the flash flag for the pin is set, every
iteration of the flash loop writes HIGH, records `state = 1`, sleeps
the full configured `speed_ms` (not half of it), writes LOW, records
`state = 0` and sleeps the full `speed_ms` again — so
`toggle_flash(11, True, 200)` yields 200 ms half-periods. -/
theorem c3_flash_waits_full_period (st : AppState) (pin T k : Nat)
    (hf : st.flashing_pins pin = true) :
    (flash_pin pin T k st).2 =
      Ev.gpioWrite pin 0 ::
        (List.replicate k
          [Ev.gpioWrite pin 1, Ev.stateWrite pin 1, Ev.sleepMs T,
           Ev.gpioWrite pin 0, Ev.stateWrite pin 0, Ev.sleepMs T]).flatten := by
  show Ev.gpioWrite pin 0 :: (flash_loop pin T st k).2 = _
  rw [flash_loop_trace pin T k st hf]

/-- C3 witness: the trace theorem applied to the startup state with
the flash flag of pin 11 set, at speed 200 and two iterations. -/
theorem c3_witness :
    flashOn11State.flashing_pins 11 = true ∧
    (flash_pin 11 200 2 flashOn11State).2 =
      Ev.gpioWrite 11 0 ::
        (List.replicate 2
          [Ev.gpioWrite 11 1, Ev.stateWrite 11 1, Ev.sleepMs 200,
           Ev.gpioWrite 11 0, Ev.stateWrite 11 0, Ev.sleepMs 200]).flatten :=
  ⟨by decide, c3_flash_waits_full_period flashOn11State 11 200 2 (by decide)⟩

/-- C3 counterexample: one loop iteration at speed 200 sleeps 200 ms
per half-cycle, not the 100 ms the claim derives from a 200 ms
period. -/
theorem c3_counterexample :
    sleepsOf (flash_pin 11 200 1 flashOn11State).2 = [200, 200] ∧
    ¬ (sleepsOf (flash_pin 11 200 1 flashOn11State).2 = [100, 100]) := by
  refine ⟨by decide, by decide⟩

theorem reset_step_at (st : AppState) (a p : Nat) :
    (reset_step st a).pin_states p =
      if p = a ∧ (st.pin_states a).component = false
      then { st.pin_states p with mode := "OUT", state := 0, flashing := false }
      else st.pin_states p := by
  unfold reset_step
  by_cases hc : (st.pin_states a).component = true
  · rw [if_pos hc]
    rw [if_neg]
    rintro ⟨_, h2⟩
    rw [hc] at h2
    exact absurd h2 (by decide)
  · rw [if_neg hc]
    have hcf : (st.pin_states a).component = false := by
      cases h : (st.pin_states a).component
      · rfl
      · exact absurd h hc
    by_cases hpa : p = a
    · subst hpa
      rw [if_pos ⟨rfl, hcf⟩]
      by_cases hfl : (st.pin_states p).flashing = true
      · simp [hfl, updPS]
      · simp [hfl, updPS]
    · rw [if_neg (by rintro ⟨h, _⟩; exact hpa h)]
      by_cases hfl : (st.pin_states a).flashing = true
      · simp [hfl, updPS, hpa]
      · simp [hfl, updPS, hpa]

theorem reset_foldl_at (l : List Nat) : ∀ (st : AppState) (p : Nat),
    ((l.foldl reset_step st).pin_states p) =
      if p ∈ l ∧ (st.pin_states p).component = false
      then { st.pin_states p with mode := "OUT", state := 0, flashing := false }
      else st.pin_states p := by
  induction l with
  | nil => intro st p; simp
  | cons a t ih =>
    intro st p
    rw [List.foldl_cons, ih, reset_step_at]
    by_cases hpa : p = a
    · subst hpa
      by_cases hc : (st.pin_states p).component = false
      · simp [hc, List.mem_cons]
      · simp [hc, List.mem_cons]
    · simp [hpa, List.mem_cons]

/-- C7: `reset_all` leaves every pin with a bound component completely
unchanged (its whole record survives verbatim), and drives every other
pin's record to mode `OUT`, state 0, not flashing, preserving its
remaining fields. -/
theorem c7_reset_all_frame (st : AppState) (p : Nat) (hp : p ∈ GPIO_PINS) :
    ((st.pin_states p).component = true →
      (reset_all st).pin_states p = st.pin_states p) ∧
    ((st.pin_states p).component = false →
      (reset_all st).pin_states p =
        { st.pin_states p with mode := "OUT", state := 0, flashing := false }) := by
  unfold reset_all
  rw [reset_foldl_at]
  constructor
  · intro hc
    rw [if_neg]
    rintro ⟨_, h2⟩
    rw [hc] at h2
    exact absurd h2 (by decide)
  · intro hc
    rw [if_pos ⟨hp, hc⟩]

/-- C7 witness: the reset frame theorem applied to the startup state
with a component bound to pin 11. -/
theorem c7_witness :
    (11 ∈ GPIO_PINS) ∧
    (((compBoundState.pin_states 11).component = true →
      (reset_all compBoundState).pin_states 11 = compBoundState.pin_states 11) ∧
    ((compBoundState.pin_states 11).component = false →
      (reset_all compBoundState).pin_states 11 =
        { compBoundState.pin_states 11 with
            mode := "OUT", state := 0, flashing := false })) :=
  ⟨by decide, c7_reset_all_frame compBoundState 11 (by decide)⟩

theorem iterate_toggle_peripheral (k : Nat) : ∀ r : PinRec,
    ((toggle_peripheral_rec)^[k] r).peripheral_mode =
      (fun c => next_peripheral_mode r.available_modes c)^[k] r.peripheral_mode := by
  induction k with
  | zero => intro r; rfl
  | succ n ih =>
    intro r
    rw [Function.iterate_succ_apply, Function.iterate_succ_apply]
    rw [ih (toggle_peripheral_rec r)]
    rfl

theorem cycle_alt_core : ∀ p ∈ GPIO_PINS, ∀ cur ∈ pinAltFunctions p,
    (fun c => next_peripheral_mode (pinAltFunctions p) c)^[(pinAltFunctions p).length]
      cur = cur := by decide

theorem advance_alt_core : ∀ p ∈ GPIO_PINS, ∀ i ∈ List.range (pinAltFunctions p).length,
    next_peripheral_mode (pinAltFunctions p) ((pinAltFunctions p).getD i "") =
      (pinAltFunctions p).getD ((i + 1) % (pinAltFunctions p).length) "" := by decide

/-- C9: for every addressable pin, cycling the peripheral mode as many
times as the pin's alt-function list is long returns the record to its
original peripheral mode, and each single cycle advances from the
member at index i to the member at index (i+1) mod N, wrapping at the
end. -/
theorem c9_cycle_alt_function (p : Nat) (hp : p ∈ GPIO_PINS) (r : PinRec)
    (hm : r.available_modes = pinAltFunctions p)
    (hcur : r.peripheral_mode ∈ r.available_modes) :
    ((toggle_peripheral_rec)^[(pinAltFunctions p).length] r).peripheral_mode =
      r.peripheral_mode ∧
    (∀ i, i < (pinAltFunctions p).length →
      next_peripheral_mode (pinAltFunctions p) ((pinAltFunctions p).getD i "") =
        (pinAltFunctions p).getD ((i + 1) % (pinAltFunctions p).length) "") := by
  constructor
  · rw [iterate_toggle_peripheral, hm]
    exact cycle_alt_core p hp r.peripheral_mode (hm ▸ hcur)
  · intro i hi
    exact advance_alt_core p hp i (List.mem_range.mpr hi)

/-- C9 witness: the cyclic property applied to pin 3 in its startup
record (alt set of size 2). -/
theorem c9_witness :
    (3 ∈ GPIO_PINS ∧ (initPinRec 3).available_modes = pinAltFunctions 3 ∧
      (initPinRec 3).peripheral_mode ∈ (initPinRec 3).available_modes) ∧
    (((toggle_peripheral_rec)^[(pinAltFunctions 3).length]
        (initPinRec 3)).peripheral_mode = (initPinRec 3).peripheral_mode ∧
    (∀ i, i < (pinAltFunctions 3).length →
      next_peripheral_mode (pinAltFunctions 3) ((pinAltFunctions 3).getD i "") =
        (pinAltFunctions 3).getD ((i + 1) % (pinAltFunctions 3).length) "")) :=
  ⟨⟨by decide, rfl, by decide⟩,
   c9_cycle_alt_function 3 (by decide) (initPinRec 3) rfl (by decide)⟩

theorem clear_pins_at (l : List Nat) : ∀ (ps : Nat → PinRec) (q : Nat),
    (clear_pins ps l).1 q =
      if q ∈ l ∧ q ∈ GPIO_PINS ∧ (ps q).component = false
      then { ps q with state := 0 } else ps q := by
  induction l with
  | nil => intro ps q; simp [clear_pins]
  | cons a t ih =>
    intro ps q
    unfold clear_pins
    by_cases hg : a ∈ GPIO_PINS ∧ (ps a).component = false
    · rw [if_pos hg]
      show (clear_pins (updPS ps a (fun r => { r with state := 0 })) t).1 q = _
      rw [ih]
      by_cases hqa : q = a
      · subst hqa
        simp [updPS, hg.1, hg.2, List.mem_cons]
      · simp [updPS, hqa, List.mem_cons]
    · rw [if_neg hg]
      rw [ih]
      by_cases hqa : q = a
      · subst hqa
        rw [if_neg (by rintro ⟨_, h2, h3⟩; exact hg ⟨h2, h3⟩),
          if_neg (by rintro ⟨_, h2, h3⟩; exact hg ⟨h2, h3⟩)]
      · simp [hqa, List.mem_cons]

theorem clear_pins_component (l : List Nat) (ps : Nat → PinRec) (q : Nat) :
    (((clear_pins ps l).1) q).component = (ps q).component := by
  rw [clear_pins_at]
  split
  · rfl
  · rfl

theorem clear_pins_comp_no_events (l : List Nat) : ∀ (ps : Nat → PinRec) (q : Nat),
    (ps q).component = true → ∀ e ∈ (clear_pins ps l).2, evPin e ≠ some q := by
  induction l with
  | nil => intro ps q _ e he; simp [clear_pins] at he
  | cons a t ih =>
    intro ps q hc e he
    unfold clear_pins at he
    by_cases hg : a ∈ GPIO_PINS ∧ (ps a).component = false
    · rw [if_pos hg] at he
      have hqa : q ≠ a := by
        intro h
        rw [← h, hc] at hg
        exact absurd hg.2 (by decide)
      simp only [List.cons_append, List.nil_append, List.mem_cons] at he
      rcases he with h | h | h | h
      · subst h; simp [evPin]; exact fun hh => hqa hh.symm
      · subst h; simp [evPin]; exact fun hh => hqa hh.symm
      · subst h; simp [evPin]; exact fun hh => hqa hh.symm
      · refine ih _ q ?_ e h
        rw [updPS_ne _ _ _ _ hqa]
        exact hc
    · rw [if_neg hg] at he
      exact ih ps q hc e he

theorem clear_pins_low_mem (l : List Nat) : ∀ (ps : Nat → PinRec) (q : Nat),
    Ev.gpioWrite q 0 ∈ (clear_pins ps l).2 ↔
      (q ∈ l ∧ q ∈ GPIO_PINS ∧ (ps q).component = false) := by
  induction l with
  | nil => intro ps q; simp [clear_pins]
  | cons a t ih =>
    intro ps q
    unfold clear_pins
    by_cases hg : a ∈ GPIO_PINS ∧ (ps a).component = false
    · rw [if_pos hg]
      by_cases hqa : q = a
      · subst hqa
        simp [List.mem_cons, hg.1, hg.2]
      · have hqa2 : a ≠ q := fun h => hqa h.symm
        simp only [List.cons_append, List.nil_append, List.mem_cons, Ev.gpioWrite.injEq]
        rw [ih]
        simp [updPS, hqa, hqa2, List.mem_cons]
    · rw [if_neg hg]
      rw [ih]
      by_cases hqa : q = a
      · subst hqa
        constructor
        · rintro ⟨_, h2, h3⟩; exact absurd ⟨h2, h3⟩ hg
        · rintro ⟨_, h2, h3⟩; exact absurd ⟨h2, h3⟩ hg
      · simp [hqa, List.mem_cons]

theorem clear_pins_no_high (l : List Nat) : ∀ (ps : Nat → PinRec) (q : Nat),
    Ev.gpioWrite q 1 ∉ (clear_pins ps l).2 := by
  induction l with
  | nil => intro ps q h; simp [clear_pins] at h
  | cons a t ih =>
    intro ps q h
    unfold clear_pins at h
    by_cases hg : a ∈ GPIO_PINS ∧ (ps a).component = false
    · rw [if_pos hg] at h
      simp only [List.cons_append, List.nil_append, List.mem_cons] at h
      rcases h with h | h | h | h
      · exact absurd h (by simp)
      · exact absurd h (by simp)
      · exact absurd h (by simp)
      · exact ih _ q h
    · rw [if_neg hg] at h
      exact ih ps q h

theorem display_pattern_at (g2p : Nat → Option Nat) (gl : List Nat) :
    ∀ (ps : Nat → PinRec) (q : Nat),
    (display_pattern g2p ps gl).1 q =
      if (∃ g ∈ gl, g2p g = some q) ∧ q ∈ GPIO_PINS ∧ (ps q).component = false
      then { ps q with state := 1 } else ps q := by
  induction gl with
  | nil => intro ps q; simp [display_pattern]
  | cons g t ih =>
    intro ps q
    unfold display_pattern
    cases hg2 : g2p g with
    | none =>
      dsimp only
      rw [ih]
      simp [List.exists_mem_cons_iff, hg2]
    | some pin =>
      dsimp only
      by_cases hgd : pin ∈ GPIO_PINS ∧ (ps pin).component = false
      · rw [if_pos hgd]
        show (display_pattern g2p (updPS ps pin (fun r => { r with state := 1 })) t).1 q = _
        rw [ih]
        by_cases hqp : q = pin
        · subst hqp
          simp [updPS, hgd.1, hgd.2, hg2, List.exists_mem_cons_iff]
        · have hpq : ¬ (g2p g = some q) := by
            rw [hg2]
            intro h
            exact hqp (Option.some.inj h).symm
          simp [updPS, hqp, hpq, List.exists_mem_cons_iff]
      · rw [if_neg hgd]
        rw [ih]
        by_cases hqp : q = pin
        · subst hqp
          rw [if_neg (by rintro ⟨_, h2, h3⟩; exact hgd ⟨h2, h3⟩),
            if_neg (by rintro ⟨_, h2, h3⟩; exact hgd ⟨h2, h3⟩)]
        · have hpq : ¬ (g2p g = some q) := by
            rw [hg2]
            intro h
            exact hqp (Option.some.inj h).symm
          simp [hpq, List.exists_mem_cons_iff]

theorem display_pattern_component (g2p : Nat → Option Nat) (gl : List Nat)
    (ps : Nat → PinRec) (q : Nat) :
    ((display_pattern g2p ps gl).1 q).component = (ps q).component := by
  rw [display_pattern_at]
  split
  · rfl
  · rfl

theorem display_pattern_comp_no_events (g2p : Nat → Option Nat) (gl : List Nat) :
    ∀ (ps : Nat → PinRec) (q : Nat),
    (ps q).component = true → ∀ e ∈ (display_pattern g2p ps gl).2, evPin e ≠ some q := by
  induction gl with
  | nil => intro ps q _ e he; simp [display_pattern] at he
  | cons g t ih =>
    intro ps q hc e he
    unfold display_pattern at he
    cases hg2 : g2p g with
    | none =>
      rw [hg2] at he
      dsimp only at he
      exact ih ps q hc e he
    | some pin =>
      rw [hg2] at he
      dsimp only at he
      by_cases hgd : pin ∈ GPIO_PINS ∧ (ps pin).component = false
      · rw [if_pos hgd] at he
        have hqp : q ≠ pin := by
          intro h
          rw [← h, hc] at hgd
          exact absurd hgd.2 (by decide)
        simp only [List.cons_append, List.nil_append, List.mem_cons] at he
        rcases he with h | h | h | h
        · subst h; simp [evPin]; exact fun hh => hqp hh.symm
        · subst h; simp [evPin]; exact fun hh => hqp hh.symm
        · subst h; simp [evPin]; exact fun hh => hqp hh.symm
        · refine ih _ q ?_ e h
          rw [updPS_ne _ _ _ _ hqp]
          exact hc
      · rw [if_neg hgd] at he
        exact ih ps q hc e he

theorem display_pattern_high_mem (g2p : Nat → Option Nat) (gl : List Nat) :
    ∀ (ps : Nat → PinRec) (q : Nat),
    Ev.gpioWrite q 1 ∈ (display_pattern g2p ps gl).2 ↔
      ((∃ g ∈ gl, g2p g = some q) ∧ q ∈ GPIO_PINS ∧ (ps q).component = false) := by
  induction gl with
  | nil => intro ps q; simp [display_pattern]
  | cons g t ih =>
    intro ps q
    unfold display_pattern
    cases hg2 : g2p g with
    | none =>
      dsimp only
      rw [ih]
      simp [List.exists_mem_cons_iff, hg2]
    | some pin =>
      dsimp only
      by_cases hgd : pin ∈ GPIO_PINS ∧ (ps pin).component = false
      · rw [if_pos hgd]
        by_cases hqp : q = pin
        · subst hqp
          simp [List.mem_cons, hgd.1, hgd.2, hg2, List.exists_mem_cons_iff]
        · have hpq : pin ≠ q := fun h => hqp h.symm
          simp only [List.cons_append, List.nil_append, List.mem_cons, Ev.gpioWrite.injEq]
          rw [ih]
          have hpq2 : ¬ (g2p g = some q) := by
            rw [hg2]
            intro h
            exact hqp (Option.some.inj h).symm
          simp [updPS, hqp, hpq, hpq2, List.exists_mem_cons_iff]
      · rw [if_neg hgd]
        rw [ih]
        by_cases hqp : q = pin
        · subst hqp
          constructor
          · rintro ⟨_, h2, h3⟩; exact absurd ⟨h2, h3⟩ hgd
          · rintro ⟨_, h2, h3⟩; exact absurd ⟨h2, h3⟩ hgd
        · have hpq2 : ¬ (g2p g = some q) := by
            rw [hg2]
            intro h
            exact hqp (Option.some.inj h).symm
          simp [hpq2, List.exists_mem_cons_iff]

theorem clock_pins_addressable : ∀ q ∈ get_all_clock_pins, q ∈ GPIO_PINS := by decide

/-- C6: during one clock-display tick, a layout pin with a component
bound is excluded from both the clear pass and the set-HIGH pass — its
record survives unchanged and no hardware or state write mentions it —
while every layout pin without a component is first driven LOW by the
clear pass and ends HIGH exactly when the current digit patterns
select it. -/
theorem c6_clock_tick_exclusivity (ps : Nat → PinRec) (s p : Nat) :
    ((ps p).component = true →
      (clock_tick s ps).1 p = ps p ∧
      ∀ e ∈ (clock_tick s ps).2, evPin e ≠ some p) ∧
    (p ∈ get_all_clock_pins → (ps p).component = false →
      (clock_tick s ps).1 p = { ps p with state := if clock_selects s p then 1 else 0 } ∧
      Ev.gpioWrite p 0 ∈ (clock_clear ps).2 ∧
      Ev.gpioWrite p 1 ∉ (clock_clear ps).2 ∧
      (Ev.gpioWrite p 1 ∈ (clock_tick s ps).2 ↔ clock_selects s p)) := by
  have htick1 : (clock_tick s ps).1 = (clock_ones s ps).1 := rfl
  have htick2 : (clock_tick s ps).2 =
      (clock_clear ps).2 ++ (clock_tens s ps).2 ++ (clock_ones s ps).2 ++
        [Ev.sleepMs 1000] := rfl
  constructor
  · intro hc
    have hcompc : ((clock_clear ps).1 p).component = true := by
      unfold clock_clear
      rw [clear_pins_component]
      exact hc
    have hcompt : ((clock_tens s ps).1 p).component = true := by
      show ((display_pattern tensGpioToPin (clock_clear ps).1
        (tensPattern (s / 10))).1 p).component = true
      rw [display_pattern_component]
      exact hcompc
    constructor
    · have h1 : (clock_clear ps).1 p = ps p := by
        unfold clock_clear
        rw [clear_pins_at, if_neg]
        rintro ⟨_, _, h3⟩
        rw [hc] at h3
        exact absurd h3 (by decide)
      have h2 : (clock_tens s ps).1 p = (clock_clear ps).1 p := by
        show (display_pattern tensGpioToPin (clock_clear ps).1
          (tensPattern (s / 10))).1 p = _
        rw [display_pattern_at, if_neg]
        rintro ⟨_, _, h3⟩
        rw [hcompc] at h3
        exact absurd h3 (by decide)
      have h3 : (clock_ones s ps).1 p = (clock_tens s ps).1 p := by
        show (display_pattern onesGpioToPin (clock_tens s ps).1
          (onesPattern (s % 10))).1 p = _
        rw [display_pattern_at, if_neg]
        rintro ⟨_, _, h3x⟩
        rw [hcompt] at h3x
        exact absurd h3x (by decide)
      rw [htick1, h3, h2, h1]
    · intro e he
      rw [htick2] at he
      rcases List.mem_append.mp he with h1 | h1
      · rcases List.mem_append.mp h1 with h2 | h2
        · rcases List.mem_append.mp h2 with h3 | h3
          · exact clear_pins_comp_no_events get_all_clock_pins ps p hc e h3
          · exact display_pattern_comp_no_events tensGpioToPin
              (tensPattern (s / 10)) (clock_clear ps).1 p hcompc e h3
        · exact display_pattern_comp_no_events onesGpioToPin
            (onesPattern (s % 10)) (clock_tens s ps).1 p hcompt e h2
      · simp only [List.mem_singleton] at h1
        subst h1
        simp [evPin]
  · intro hmem hc
    have hg : p ∈ GPIO_PINS := clock_pins_addressable p hmem
    haveI hdT : Decidable (∃ g ∈ tensPattern (s / 10), tensGpioToPin g = some p) :=
      List.decidableBEx _ _
    haveI hdO : Decidable (∃ g ∈ onesPattern (s % 10), onesGpioToPin g = some p) :=
      List.decidableBEx _ _
    have hcompc : ((clock_clear ps).1 p).component = false := by
      unfold clock_clear
      rw [clear_pins_component]
      exact hc
    have hcompt : ((clock_tens s ps).1 p).component = false := by
      show ((display_pattern tensGpioToPin (clock_clear ps).1
        (tensPattern (s / 10))).1 p).component = false
      rw [display_pattern_component]
      exact hcompc
    have hC : (clock_clear ps).1 p = { ps p with state := 0 } := by
      unfold clock_clear
      rw [clear_pins_at, if_pos ⟨hmem, hg, hc⟩]
    have hT : (clock_tens s ps).1 p =
        if (∃ g ∈ tensPattern (s / 10), tensGpioToPin g = some p)
        then { ps p with state := 1 } else { ps p with state := 0 } := by
      show (display_pattern tensGpioToPin (clock_clear ps).1
        (tensPattern (s / 10))).1 p = _
      rw [display_pattern_at]
      by_cases hts : (∃ g ∈ tensPattern (s / 10), tensGpioToPin g = some p)
      · rw [if_pos ⟨hts, hg, hcompc⟩, if_pos hts, hC]
      · rw [if_neg (by rintro ⟨h1, _, _⟩; exact hts h1), if_neg hts, hC]
    have hO : (clock_ones s ps).1 p =
        { ps p with state := if clock_selects s p then 1 else 0 } := by
      show (display_pattern onesGpioToPin (clock_tens s ps).1
        (onesPattern (s % 10))).1 p = _
      rw [display_pattern_at]
      by_cases hos : (∃ g ∈ onesPattern (s % 10), onesGpioToPin g = some p)
      · rw [if_pos ⟨hos, hg, hcompt⟩, hT]
        by_cases hts : (∃ g ∈ tensPattern (s / 10), tensGpioToPin g = some p)
        · have hsel : clock_selects s p := Or.inl hts
          rw [if_pos hts, if_pos hsel]
        · have hsel : clock_selects s p := Or.inr hos
          rw [if_neg hts, if_pos hsel]
      · rw [if_neg (by rintro ⟨h1, _, _⟩; exact hos h1), hT]
        by_cases hts : (∃ g ∈ tensPattern (s / 10), tensGpioToPin g = some p)
        · have hsel : clock_selects s p := Or.inl hts
          rw [if_pos hts, if_pos hsel]
        · have hnsel : ¬ clock_selects s p := by
            rintro (h | h)
            · exact hts h
            · exact hos h
          rw [if_neg hts, if_neg hnsel]
    refine ⟨?_, ?_, ?_, ?_⟩
    · rw [htick1, hO]
    · exact (clear_pins_low_mem get_all_clock_pins ps p).mpr ⟨hmem, hg, hc⟩
    · exact clear_pins_no_high get_all_clock_pins ps p
    · rw [htick2]
      constructor
      · intro hin
        rcases List.mem_append.mp hin with h1 | h1
        · rcases List.mem_append.mp h1 with h2 | h2
          · rcases List.mem_append.mp h2 with h3 | h3
            · exact absurd h3 (clear_pins_no_high get_all_clock_pins ps p)
            · have hx := (display_pattern_high_mem tensGpioToPin
                (tensPattern (s / 10)) (clock_clear ps).1 p).mp h3
              exact Or.inl hx.1
          · have hx := (display_pattern_high_mem onesGpioToPin
              (onesPattern (s % 10)) (clock_tens s ps).1 p).mp h2
            exact Or.inr hx.1
        · simp only [List.mem_singleton] at h1
          exact absurd h1 (by simp)
      · intro hsel
        rcases hsel with hts | hos
        · have hx := (display_pattern_high_mem tensGpioToPin
            (tensPattern (s / 10)) (clock_clear ps).1 p).mpr ⟨hts, hg, hcompc⟩
          exact List.mem_append.mpr (Or.inl (List.mem_append.mpr
            (Or.inl (List.mem_append.mpr (Or.inr hx)))))
        · have hx := (display_pattern_high_mem onesGpioToPin
            (onesPattern (s % 10)) (clock_tens s ps).1 p).mpr ⟨hos, hg, hcompt⟩
          exact List.mem_append.mpr (Or.inl (List.mem_append.mpr (Or.inr hx)))

/-- C6 witness: the tick theorem applied at seconds 42 to a state with
a component on layout pin 23 (excluded) and, for the same tick, to the
unclaimed layout pin 24 (cleared, then set HIGH since the ones digit 2
selects it). -/
theorem c6_witness :
    ((clockCompPs 23).component = true ∧ 24 ∈ get_all_clock_pins ∧
      (clockCompPs 24).component = false) ∧
    ((clock_tick 42 clockCompPs).1 23 = clockCompPs 23 ∧
      ∀ e ∈ (clock_tick 42 clockCompPs).2, evPin e ≠ some 23) ∧
    ((clock_tick 42 clockCompPs).1 24 =
        { clockCompPs 24 with state := if clock_selects 42 24 then 1 else 0 } ∧
      Ev.gpioWrite 24 0 ∈ (clock_clear clockCompPs).2 ∧
      Ev.gpioWrite 24 1 ∉ (clock_clear clockCompPs).2 ∧
      (Ev.gpioWrite 24 1 ∈ (clock_tick 42 clockCompPs).2 ↔ clock_selects 42 24)) :=
  ⟨⟨by decide, by decide, by decide⟩,
   (c6_clock_tick_exclusivity clockCompPs 42 23).1 (by decide),
   (c6_clock_tick_exclusivity clockCompPs 42 24).2 (by decide) (by decide)⟩

/-- C2 counterexample: registering the tag `dht22` a second time with a
different class neither fails nor keeps the first class — the lookup
afterwards yields the second class. -/
theorem c2_counterexample :
    (register_class (register_class emptyRegistry "dht22" "DHT22Component")
        "dht22" "OtherComponent").component_classes "dht22" = some "OtherComponent" ∧
    ¬ ((register_class (register_class emptyRegistry "dht22" "DHT22Component")
        "dht22" "OtherComponent").component_classes "dht22" = some "DHT22Component") := by
  constructor
  · simp [register_class, emptyRegistry]
  · simp [register_class, emptyRegistry]

/-- C2 (amended): `register_class` rejects nothing; a second
registration under the same tag silently replaces the earlier class
(last registration wins), for every registry and pair of classes. -/
theorem c2_register_class_last_wins (r : Registry) (tag c1 c2 : String) :
    (register_class (register_class r tag c1) tag c2).component_classes tag = some c2 := by
  simp [register_class]

theorem load_pin_entries_warnings (ps : Nat → PinRec)
    (l : List (Nat × PinSettings)) : (load_pin_entries ps l).2 = [] := by
  induction l generalizing ps with
  | nil => rfl
  | cons e rest ih =>
    unfold load_pin_entries
    split
    · exact ih _
    · exact ih _

theorem load_component_entries_warnings (reg : String → Option String)
    (ps : Nat → PinRec) (l : List (Nat × CompEntry)) :
    (load_component_entries reg ps l).2 = [] := by
  induction l generalizing ps with
  | nil => rfl
  | cons e rest ih =>
    unfold load_component_entries
    split
    · cases e.2.ctype with
      | some t =>
        cases hr : reg t with
        | some c => simp [hr]; exact ih _
        | none => simp [hr]; exact ih _
      | none => simp; exact ih _
    · exact ih _

theorem load_pin_entries_outside (ps : Nat → PinRec)
    (l : List (Nat × PinSettings)) (p : Nat) (hp : p ∉ GPIO_PINS) :
    (load_pin_entries ps l).1 p = ps p := by
  induction l generalizing ps with
  | nil => rfl
  | cons e rest ih =>
    unfold load_pin_entries
    split
    · rename_i hmem
      rw [ih]
      have hne : p ≠ e.1 := fun h => hp (h ▸ hmem)
      exact updPS_ne _ _ _ _ hne
    · exact ih _

theorem load_component_entries_outside (reg : String → Option String)
    (ps : Nat → PinRec) (l : List (Nat × CompEntry)) (p : Nat)
    (hp : p ∉ GPIO_PINS) :
    (load_component_entries reg ps l).1 p = ps p := by
  induction l generalizing ps with
  | nil => rfl
  | cons e rest ih =>
    unfold load_component_entries
    split
    · rename_i hmem
      cases e.2.ctype with
      | some t =>
        cases hr : reg t with
        | some c =>
          simp only [hr]
          rw [ih]
          have hne : p ≠ e.1 := fun h => hp (h ▸ hmem)
          exact updPS_ne _ _ _ _ hne
        | none => simp only [hr]; exact ih _
      | none => simp only []; exact ih _
    · exact ih _

/-- C8 (amended): importing a snapshot never aborts (the import is a
total function applied entry by entry), an entry for a pin outside the
addressable set leaves that pin's record untouched, an addressable-pin
component entry with an unknown or missing type tag is skipped with no
effect, and the import records no warning at all — there is no
`ConfigImportError`; skipped entries are silent. -/
theorem c8_import_skips_silently (reg : String → Option String)
    (pins : List (Nat × PinSettings)) (comps : List (Nat × CompEntry))
    (ps : Nat → PinRec) (p : Nat) (hp : p ∉ GPIO_PINS) :
    (load_configuration reg pins comps ps).1 p = ps p ∧
    (load_configuration reg pins comps ps).2 = [] ∧
    (∀ q ce t, ce.ctype = some t → reg t = none →
      load_component_entries reg ps [(q, ce)] = (ps, [])) := by
  refine ⟨?_, ?_, ?_⟩
  · unfold load_configuration
    rw [load_component_entries_outside _ _ _ _ hp,
      load_pin_entries_outside _ _ _ hp]
  · show (load_pin_entries ps pins).2 ++
      (load_component_entries reg (load_pin_entries ps pins).1 comps).2 = []
    rw [load_pin_entries_warnings, load_component_entries_warnings]
    rfl
  · intro q ce t hct hr
    unfold load_component_entries
    split
    · rw [hct]
      simp only [hr]
      rfl
    · rfl

/-- C8 witness: the skip-behaviour theorem applied at pin 999 with a
concrete two-entry snapshot. -/
theorem c8_import_witness :
    (999 ∉ GPIO_PINS) ∧
    ((load_configuration app_registry.component_classes
        [(11, snapshotSettings), (999, snapshotSettings)] [] initPinRec).1 999 =
      initPinRec 999 ∧
    (load_configuration app_registry.component_classes
        [(11, snapshotSettings), (999, snapshotSettings)] [] initPinRec).2 = [] ∧
    (∀ q ce t, ce.ctype = some t → app_registry.component_classes t = none →
      load_component_entries app_registry.component_classes initPinRec [(q, ce)] =
        (initPinRec, []))) :=
  ⟨by decide,
   c8_import_skips_silently app_registry.component_classes
     [(11, snapshotSettings), (999, snapshotSettings)] [] initPinRec 999 (by decide)⟩

/-- C8 counterexample: importing the snapshot `{pins: {11: ..., 999:
...}}` applies the entry for pin 11 and skips pin 999, but records
zero warnings — not the one `ConfigImportError` the claim requires. -/
theorem c8_counterexample :
    ((load_configuration app_registry.component_classes
        [(11, snapshotSettings), (999, snapshotSettings)] [] initPinRec).1 11).mode = "IN" ∧
    (load_configuration app_registry.component_classes
        [(11, snapshotSettings), (999, snapshotSettings)] [] initPinRec).1 999 =
      initPinRec 999 ∧
    ¬ ((load_configuration app_registry.component_classes
        [(11, snapshotSettings), (999, snapshotSettings)] [] initPinRec).2.length = 1) := by
  refine ⟨by decide, by decide, by decide⟩

/-- C10: for every addressable pin, `remove_component` succeeds and
leaves the pin at mode `IN` with `component = False`, the registry
instance and the latest reading deleted and the polling flag cleared —
with no hypothesis that a component was bound, since the route never
checks; other pins are untouched. -/
theorem c10_remove_component_forces_input (st : AppState) (p : Nat)
    (hp : p ∈ GPIO_PINS) :
    ∃ st2, remove_component_route p st = Except.ok st2 ∧
      (st2.pin_states p).mode = "IN" ∧
      (st2.pin_states p).component = false ∧
      st2.component_data p = none ∧
      st2.instances p = none ∧
      st2.component_running p = false ∧
      (∀ q, q ≠ p → st2.pin_states q = st.pin_states q) := by
  refine ⟨{ st with
      component_running := fun q => if q = p then false else st.component_running q,
      instances := fun q => if q = p then none else st.instances q,
      pin_states := updPS st.pin_states p (fun r => { r with mode := "IN", component := false }),
      component_data := fun q => if q = p then none else st.component_data q },
    ?_, ?_, ?_, ?_, ?_, ?_, ?_⟩
  · unfold remove_component_route
    rw [if_pos hp]
  · simp [updPS]
  · simp [updPS]
  · simp
  · simp
  · simp
  · intro q hq
    show updPS st.pin_states p
      (fun r => { r with mode := "IN", component := false }) q = st.pin_states q
    exact updPS_ne _ _ _ _ hq

/-- C10 witness: applied to the startup state at pin 11, whose mode is
`OUT` and which has no component bound; the route still returns a
record with mode `IN`. -/
theorem c10_remove_component_witness :
    ((mkInit.pin_states 11).mode = "OUT" ∧
     (mkInit.pin_states 11).component = false) ∧
    (∃ st2, remove_component_route 11 mkInit = Except.ok st2 ∧
      (st2.pin_states 11).mode = "IN" ∧
      (st2.pin_states 11).component = false ∧
      st2.component_data 11 = none ∧
      st2.instances 11 = none ∧
      st2.component_running 11 = false ∧
      (∀ q, q ≠ 11 → st2.pin_states q = mkInit.pin_states q)) :=
  ⟨by decide, c10_remove_component_forces_input mkInit 11 (by decide)⟩

end Gpioviz
